import Mathlib

/-
Shallow embedding of src/salians.py, a Steam Saliens minigame automation bot.

Modelling conventions:
- Python floats are modelled as rationals (Rat); all thresholds and weights
  in the source are small decimal literals, so order comparisons agree.
- Fallible Python code (exceptions) is modelled with Option / Except.
- Decoded JSON payloads are modelled by the JValue / JObject types below.
  The response envelope of a remote operation is modelled as an
  Option JObject, where `none` stands for an absent or null envelope and
  an empty object stands for a falsy empty envelope.
- The blocking control loop is modelled as a trace of BotAction values.
-/

/-- A decoded JSON value, as produced by the json() call on a response. -/
inductive JValue where
  | jnull
  | jbool (b : Bool)
  | jint (n : Int)
  | jnum (q : Rat)
  | jstr (s : String)
  | jarr (xs : List JValue)
  | jobj (fields : List (String × JValue))

/-- A decoded JSON object: an association list of fields. -/
abbrev JObject := List (String × JValue)

/-- Field lookup in a JSON object, modelling Python dict indexing. -/
def getField (j : JObject) (k : String) : Option JValue :=
  (j.find? (fun p => p.1 == k)).map (fun p => p.2)

/-- Python int(x) coercion: identity on ints, truncation toward zero on
floats, parsing on strings, 0/1 on bools, failure otherwise. -/
def coerceInt : JValue → Option Int
  | JValue.jint n => some n
  | JValue.jnum q => some (q.num.tdiv (q.den : Int))
  | JValue.jstr s => s.toInt?
  | JValue.jbool b => some (if b then 1 else 0)
  | JValue.jnull => none
  | JValue.jarr _ => none
  | JValue.jobj _ => none

/-- Python number coercion for a raw JSON numeric field. -/
def asRat : JValue → Option Rat
  | JValue.jint n => some (n : Rat)
  | JValue.jnum q => some q
  | _ => none

/-- Truthiness of a response envelope: Python if json[response_key] treats
an absent/null envelope and an empty object as falsy. -/
def truthy : Option JObject → Bool
  | none => false
  | some o => !o.isEmpty

/-- Failure of a decode step: a required field is absent (Python KeyError)
or has a value of the wrong shape (Python ValueError / TypeError). -/
inductive DecodeError where
  | missingField (field : String)
  | wrongType (field : String)
  | notAnInt (field : String)
  | indexOutOfRange
deriving DecidableEq

/-- Failure of a remote operation: the NoResponseError raised by the source
on a falsy response envelope, or an unhandled decode failure. -/
inductive OpError where
  | noResponse
  | decode (e : DecodeError)
deriving DecidableEq

def apKey : String := "active_planet"
def levelKey : String := "level"
def scoreKey : String := "score"
def nlsKey : String := "next_level_score"
def idKey : String := "id"
def stateKey : String := "state"
def nameKey : String := "name"
def planetsKey : String := "planets"
def zonesKey : String := "zones"
def zonePositionKey : String := "zone_position"
def typeKey : String := "type"
def difficultyKey : String := "difficulty"
def capturedKey : String := "captured"
def captureProgressKey : String := "capture_progress"

/-- Model of int(json[k]): KeyError when the field is absent, coercion
failure when it is not int-coercible. -/
def requireInt (j : JObject) (k : String) : Except DecodeError Int :=
  match getField j k with
  | none => Except.error (DecodeError.missingField k)
  | some v =>
    match coerceInt v with
    | none => Except.error (DecodeError.notAnInt k)
    | some n => Except.ok n

/-- PlayerInfo domain value (src/salians.py lines 15-20). -/
structure PlayerInfo where
  active_planet : Int
  level : Int
  score : Int
  next_level_score : Int
deriving DecidableEq

/-- The active_planet part of PlayerInfo.from_json (lines 27-29): defaults
to the -1 sentinel when the field is absent, else coerces with int(). -/
def activePlanetField (j : JObject) : Except DecodeError Int :=
  match getField j apKey with
  | none => Except.ok (-1)
  | some v =>
    match coerceInt v with
    | none => Except.error (DecodeError.notAnInt apKey)
    | some n => Except.ok n

/-- PlayerInfo.from_json (src/salians.py lines 25-30): active_planet is
optional with sentinel -1; level, score, next_level_score are required
int-coerced fields, read in source order. -/
def PlayerInfo.from_json (j : JObject) : Except DecodeError PlayerInfo :=
  match activePlanetField j with
  | Except.error e => Except.error e
  | Except.ok ap =>
    match requireInt j levelKey with
    | Except.error e => Except.error e
    | Except.ok lvl =>
      match requireInt j scoreKey with
      | Except.error e => Except.error e
      | Except.ok sc =>
        match requireInt j nlsKey with
        | Except.error e => Except.error e
        | Except.ok nls => Except.ok ⟨ap, lvl, sc, nls⟩

/-- PlayerInfo.completion (src/salians.py lines 32-33): the percentage
score / next_level_score * 100. The source divides without a guard; a
zero denominator raises ZeroDivisionError in Python, modelled here as
none (Rat division would silently yield 0, misrepresenting the crash).
The trailing two-decimal string formatting is display-only and omitted. -/
def PlayerInfo.completion (pi : PlayerInfo) : Option Rat :=
  if pi.next_level_score = 0 then none
  else some (((pi.score : Rat) / (pi.next_level_score : Rat)) * 100)

/-- PlanetSummary domain value (src/salians.py lines 36-39). -/
structure PlanetSummary where
  id : Int
  name : String
deriving DecidableEq

/-- Zone domain value (src/salians.py lines 49-55). Difficulty is the raw
integer tier 1=Low, 2=Medium, 3=High, 4=Boss. -/
structure Zone where
  zone_position : Int
  type : Int
  difficulty : Int
  captured : Bool
  capture_progress : Rat
deriving DecidableEq

/-- Zone.get_difficulty_score (src/salians.py lines 84-90): a fixed dict
lookup 120 x {1:5, 2:10, 3:20, 4:40}; dict.get yields no value (None) for
a difficulty outside the table. -/
def Zone.get_difficulty_score (z : Zone) : Option Int :=
  if z.difficulty = 1 then some (120 * 5)
  else if z.difficulty = 2 then some (120 * 10)
  else if z.difficulty = 3 then some (120 * 20)
  else if z.difficulty = 4 then some (120 * 40)
  else none

/-- PlanetDetails domain value (src/salians.py lines 97-101). -/
structure PlanetDetails where
  id : Int
  name : String
  zones : List Zone
deriving DecidableEq

/-- A (planet, zone) pairing (src/salians.py lines 115-118). -/
structure PlanetZoneTuple where
  planet_details : PlanetDetails
  zone : Zone
deriving DecidableEq

/-- The difficulty multiplier dict {1: 2, 2: 4, 3: 8, 4: 100}.get of
PlanetZoneTuple.weight line 124; yields no value outside the table. -/
def difficultyMultiplier (d : Int) : Option Rat :=
  if d = 1 then some 2
  else if d = 2 then some 4
  else if d = 3 then some 8
  else if d = 4 then some 100
  else none

/-- PlanetZoneTuple.weight (src/salians.py lines 123-132). A captured zone
weighs 0 before the multiplier is ever used, so that branch is defined even
for a difficulty outside the table; the final branch multiplies the looked
up value, which is undefined (a Python TypeError on None) when the lookup
yielded nothing, hence the Option result. The source compares small ints
with the is operator, which CPython evaluates as equality on its cached
small integers. -/
def PlanetZoneTuple.weight (t : PlanetZoneTuple) : Option Rat :=
  let difficulty := difficultyMultiplier t.zone.difficulty
  if t.zone.captured then some 0
  else if t.zone.difficulty = 3 ∧ t.zone.capture_progress ≥ (95/100 : Rat) then some 0
  else if t.zone.difficulty = 2 ∧ t.zone.capture_progress ≥ (96/100 : Rat) then some 0
  else difficulty.map (fun m => m * 8 + (1 - t.zone.capture_progress))

/-- The sort key used by _find_best_zone_position: the weight of a pairing.
Comparing an undefined weight would crash Python; getD 0 totalises the key
and coincides with the source weight whenever that weight is defined. -/
def weightKey (t : PlanetZoneTuple) : Rat :=
  (t.weight).getD 0

/-- Stable ascending insertion used to model Python sorted (which is a
stable ascending sort): an element is placed before the first element
whose key is not smaller, so earlier input elements precede later ones
among equal keys. -/
def orderedInsertW (a : PlanetZoneTuple) : List PlanetZoneTuple → List PlanetZoneTuple
  | [] => [a]
  | b :: l => if weightKey a ≤ weightKey b then a :: b :: l else b :: orderedInsertW a l

/-- Stable ascending sort by weight, modelling sorted(zones, key=weight). -/
def sortByWeight : List PlanetZoneTuple → List PlanetZoneTuple
  | [] => []
  | a :: l => orderedInsertW a (sortByWeight l)

/-- Python negative indexing xs[-1]: the last element; none models the
IndexError raised on an empty list. -/
def lastElem? {α : Type} : List α → Option α
  | [] => none
  | [a] => some a
  | _ :: b :: l => lastElem? (b :: l)

/-- Salians._find_best_zone_position (src/salians.py lines 208-220), applied
to the already flattened list of (planet, zone) pairings: sort ascending by
weight and take the last element; none models the IndexError raised by the
trailing [-1] on an empty list. -/
def findBestZonePosition (zones : List PlanetZoneTuple) : Option PlanetZoneTuple :=
  lastElem? (sortByWeight zones)

/-- The response envelope check shared by the checking operations: the body
runs only under if json[response_key], else NoResponseError is raised. -/
def withResponse {α : Type} (payload : Option JObject)
    (k : JObject → Except OpError α) : Except OpError α :=
  match payload with
  | none => Except.error OpError.noResponse
  | some r => if r.isEmpty then Except.error OpError.noResponse else k r

/-- Lift a decode failure into an operation failure. -/
def liftDecode {α : Type} : Except DecodeError α → Except OpError α
  | Except.ok a => Except.ok a
  | Except.error e => Except.error (OpError.decode e)

/-- PlanetSummary.from_json (src/salians.py lines 44-46): id is int-coerced,
name is read from the nested state object. -/
def PlanetSummary.from_json (j : JObject) : Except DecodeError PlanetSummary :=
  match requireInt j idKey with
  | Except.error e => Except.error e
  | Except.ok i =>
    match getField j stateKey with
    | none => Except.error (DecodeError.missingField stateKey)
    | some (JValue.jobj st) =>
      match getField st nameKey with
      | none => Except.error (DecodeError.missingField nameKey)
      | some (JValue.jstr s) => Except.ok ⟨i, s⟩
      | some _ => Except.error (DecodeError.wrongType nameKey)
    | some _ => Except.error (DecodeError.wrongType stateKey)

/-- Zone.from_json (src/salians.py lines 92-94): the source stores the raw
field values without coercion; the schema types of the fields are enforced
here. -/
def Zone.from_json (j : JObject) : Except DecodeError Zone :=
  match getField j zonePositionKey with
  | none => Except.error (DecodeError.missingField zonePositionKey)
  | some (JValue.jint zp) =>
    match getField j typeKey with
    | none => Except.error (DecodeError.missingField typeKey)
    | some (JValue.jint ty) =>
      match getField j difficultyKey with
      | none => Except.error (DecodeError.missingField difficultyKey)
      | some (JValue.jint d) =>
        match getField j capturedKey with
        | none => Except.error (DecodeError.missingField capturedKey)
        | some (JValue.jbool c) =>
          match getField j captureProgressKey with
          | none => Except.error (DecodeError.missingField captureProgressKey)
          | some v =>
            match asRat v with
            | none => Except.error (DecodeError.wrongType captureProgressKey)
            | some q => Except.ok ⟨zp, ty, d, c, q⟩
        | some _ => Except.error (DecodeError.wrongType capturedKey)
      | some _ => Except.error (DecodeError.wrongType difficultyKey)
    | some _ => Except.error (DecodeError.wrongType typeKey)
  | some _ => Except.error (DecodeError.wrongType zonePositionKey)

/-- A zone list element must itself be an object. -/
def zoneFromJValue : JValue → Except DecodeError Zone
  | JValue.jobj fields => Zone.from_json fields
  | _ => Except.error (DecodeError.wrongType zonesKey)

/-- The state object name lookup json[state][name] shared by the planet
decoders. -/
def stateName (j : JObject) : Except DecodeError String :=
  match getField j stateKey with
  | none => Except.error (DecodeError.missingField stateKey)
  | some (JValue.jobj st) =>
    match getField st nameKey with
    | none => Except.error (DecodeError.missingField nameKey)
    | some (JValue.jstr s) => Except.ok s
    | some _ => Except.error (DecodeError.wrongType nameKey)
  | some _ => Except.error (DecodeError.wrongType stateKey)

/-- PlanetDetails.from_json (src/salians.py lines 106-112): the zones list
is decoded first, as in the source, then id and name. -/
def PlanetDetails.from_json (j : JObject) : Except DecodeError PlanetDetails :=
  match getField j zonesKey with
  | none => Except.error (DecodeError.missingField zonesKey)
  | some (JValue.jarr zs) =>
    match zs.mapM zoneFromJValue with
    | Except.error e => Except.error e
    | Except.ok zones =>
      match requireInt j idKey with
      | Except.error e => Except.error e
      | Except.ok i =>
        match stateName j with
        | Except.error e => Except.error e
        | Except.ok nm => Except.ok ⟨i, nm, zones⟩
  | some _ => Except.error (DecodeError.wrongType zonesKey)

/-- A planets list element must itself be an object. -/
def planetSummaryFromJValue : JValue → Except DecodeError PlanetSummary
  | JValue.jobj fields => PlanetSummary.from_json fields
  | _ => Except.error (DecodeError.wrongType planetsKey)

/-- Salians._get_planet_summaries (src/salians.py lines 222-231), as a
function of the decoded payload envelope: NoResponseError on a falsy
envelope, else each element of response[planets] is decoded. -/
def getPlanetSummariesOp (payload : Option JObject) : Except OpError (List PlanetSummary) :=
  withResponse payload (fun r =>
    match getField r planetsKey with
    | none => Except.error (OpError.decode (DecodeError.missingField planetsKey))
    | some (JValue.jarr xs) => liftDecode (xs.mapM planetSummaryFromJValue)
    | some _ => Except.error (OpError.decode (DecodeError.wrongType planetsKey)))

/-- Salians._get_planet_details (src/salians.py lines 233-239):
NoResponseError on a falsy envelope, else response[planets][0] is decoded. -/
def getPlanetDetailsOp (payload : Option JObject) : Except OpError PlanetDetails :=
  withResponse payload (fun r =>
    match getField r planetsKey with
    | none => Except.error (OpError.decode (DecodeError.missingField planetsKey))
    | some (JValue.jarr []) => Except.error (OpError.decode DecodeError.indexOutOfRange)
    | some (JValue.jarr (JValue.jobj fields :: _)) => liftDecode (PlanetDetails.from_json fields)
    | some (JValue.jarr (_ :: _)) => Except.error (OpError.decode (DecodeError.wrongType planetsKey))
    | some _ => Except.error (OpError.decode (DecodeError.wrongType planetsKey)))

/-- Salians._get_player_info (src/salians.py lines 241-248): NoResponseError
on a falsy envelope, else the envelope itself is decoded as PlayerInfo. -/
def getPlayerInfoOp (payload : Option JObject) : Except OpError PlayerInfo :=
  withResponse payload (fun r => liftDecode (PlayerInfo.from_json r))

/-- Salians._leave_planet (src/salians.py lines 250-253): fire-and-forget, the
response body is never inspected, so no NoResponseError can arise. -/
def leavePlanetOp (_payload : Option JObject) : Except OpError Unit :=
  Except.ok ()

/-- Salians._join_planet (src/salians.py lines 255-258): fire-and-forget, the
response body is never inspected, so no NoResponseError can arise. -/
def joinPlanetOp (_payload : Option JObject) : Except OpError Unit :=
  Except.ok ()

/-- Salians._join_zone (src/salians.py lines 260-264): the decoded payload is
returned unconditionally; unlike the other read/report operations there is
no envelope check and no NoResponseError. -/
def joinZoneOp (payload : Option JObject) : Except OpError (Option JObject) :=
  Except.ok payload

/-- Salians._report_score (src/salians.py lines 266-273): True under a truthy
envelope, NoResponseError otherwise. -/
def reportScoreOp (payload : Option JObject) : Except OpError Bool :=
  withResponse payload (fun _ => Except.ok true)

/-- One observable step of the control loop Salians.run
(src/salians.py lines 151-206): a remote call or a blocking sleep of a
given duration in seconds. -/
inductive BotAction where
  | getPlayerInfo
  | findBestZone
  | leavePlanet (planet_id : Int)
  | joinPlanet (planet_id : Int)
  | joinZone (zone_position : Int)
  | sleep (seconds : Nat)
  | reportScore (score : Option Int)
deriving DecidableEq

/-- Salians._sleep (src/salians.py lines 203-206): times repetitions of a
blocking sleep of duration seconds. -/
def sleepActions (duration times : Nat) : List BotAction :=
  List.replicate times (BotAction.sleep duration)

/-- The score report retry loop of Salians.run (src/salians.py lines
180-190), as counters. The successive report payloads are indexed by the
attempt number. The while guard retries < 6 is embedded structurally via
remaining = 6 - retries, so the loop is entered with remaining = 6.
Result: (attempts made, whether a report succeeded, number of 10-second
sleep units performed). On success the loop breaks at once, skipping the
sleep; after a failure it sleeps once and increments retries, even after
the final attempt. -/
def reportLoop (payloads : Nat → Option JObject) : Nat → Nat → Nat × Bool × Nat
  | _, 0 => (0, false, 0)
  | retries, remaining + 1 =>
    match reportScoreOp (payloads retries) with
    | Except.ok _ => (1, true, 0)
    | Except.error _ =>
      let t := reportLoop payloads (retries + 1) remaining
      (t.1 + 1, t.2.1, t.2.2 + 1)

/-- The score report retry loop of Salians.run (src/salians.py lines
180-190), as a trace of actions: each attempt reports the fixed difficulty
score; a failed attempt is followed by one 10-second sleep unit before the
retry; a successful attempt breaks out at once. -/
def reportPhase (score : Option Int) (payloads : Nat → Option JObject) :
    Nat → Nat → List BotAction
  | _, 0 => []
  | retries, remaining + 1 =>
    match reportScoreOp (payloads retries) with
    | Except.ok _ => [BotAction.reportScore score]
    | Except.error _ =>
      BotAction.reportScore score ::
        (sleepActions 10 1 ++ reportPhase score payloads (retries + 1) remaining)

/-- The body of one successful game cycle before the final leave
(src/salians.py lines 155-190), given the PlayerInfo fetched at Inspect
time, the selected pairing and the report payload stream: inspect, select,
relocate when the recorded planet differs from the target (leaving first
only when not on the -1 sentinel), join the zone (best-effort: a
NoResponseError there is swallowed, so the join action always appears and
the cycle always continues), await the round, then the report retry loop. -/
def cycleBody (pi : PlayerInfo) (pz : PlanetZoneTuple)
    (payloads : Nat → Option JObject) : List BotAction :=
  BotAction.getPlayerInfo ::
  BotAction.findBestZone ::
  ((if pi.active_planet ≠ pz.planet_details.id then
      (if pi.active_planet ≠ -1 then [BotAction.leavePlanet pi.active_planet] else []) ++
      [BotAction.joinPlanet pz.planet_details.id]
    else []) ++
   (BotAction.joinZone pz.zone.zone_position ::
    (sleepActions 20 6 ++
     reportPhase pz.zone.get_difficulty_score payloads 0 6)))

/-- One successful game cycle (src/salians.py lines 155-193): the body
followed by the unconditional final leave, which targets
player_info.active_planet as captured at Inspect time (line 193). -/
def runCycle (pi : PlayerInfo) (pz : PlanetZoneTuple)
    (payloads : Nat → Option JObject) : List BotAction :=
  cycleBody pi pz payloads ++ [BotAction.leavePlanet pi.active_planet]

/-- Outcome of the try block of one loop iteration (src/salians.py lines
154-193): either the cycle completed with its trace, or some exception was
raised after a prefix of the trace had been performed. -/
inductive CycleResult where
  | completed (trace : List BotAction)
  | raised (partialTrace : List BotAction)

/-- The best-effort recovery of the outer handler (src/salians.py lines
197-201): fetch player info and leave its active planet; a failure of the
inner fetch is logged and swallowed, leaving only the attempted call in
the trace. -/
def recoveryActions (recoveryPayload : Option JObject) : List BotAction :=
  BotAction.getPlayerInfo ::
    (match getPlayerInfoOp recoveryPayload with
     | Except.ok pi => [BotAction.leavePlanet pi.active_planet]
     | Except.error _ => [])

/-- One full iteration of the while True loop (src/salians.py lines
153-201): a completed cycle passes through; a raised cycle is caught by
the outer handler, which sleeps the fixed 60-second backoff and performs
best-effort recovery. The result is always a plain trace: no error
escapes an iteration. -/
def runIteration : CycleResult → Option JObject → List BotAction
  | CycleResult.completed tr, _ => tr
  | CycleResult.raised tr, rp => tr ++ sleepActions 60 1 ++ recoveryActions rp

/-- n iterations of the while True loop of Salians.run: the loop always
resumes with the next cycle, whatever the previous iterations did. -/
def runLoop (inputs : Nat → CycleResult × Option JObject) : Nat → List BotAction
  | 0 => []
  | n + 1 => runLoop inputs n ++ runIteration (inputs n).1 (inputs n).2

/-- Sample zone: an uncaptured Boss zone at 10 percent progress. -/
def bossZone : Zone := ⟨1, 0, 4, false, 1/10⟩

/-- Sample zone: an uncaptured Low zone at 50 percent progress. -/
def lowZone : Zone := ⟨2, 0, 1, false, 1/2⟩

/-- Sample zone: a captured zone with a difficulty outside the table. -/
def strayZone : Zone := ⟨3, 0, 7, false, 0⟩

/-- Sample planet holding the sample zones. -/
def samplePlanet : PlanetDetails := ⟨5, "sp", [bossZone, lowZone]⟩

/-- Sample pairing of the planet with its Boss zone. -/
def tBoss : PlanetZoneTuple := ⟨samplePlanet, bossZone⟩

/-- Sample pairing of the planet with its Low zone. -/
def tLow : PlanetZoneTuple := ⟨samplePlanet, lowZone⟩

/-- Sample player info payload with the active_planet field absent. -/
def samplePlayerJson : JObject :=
  [(levelKey, JValue.jint 5), (scoreKey, JValue.jint 100), (nlsKey, JValue.jint 200)]

/-- Sample PlayerInfo on no planet (the -1 sentinel). -/
def inspectPlayer : PlayerInfo := ⟨-1, 1, 4500, 6000⟩

/-- Sample report payload stream: the first three attempts get a falsy
envelope, the fourth a truthy one. -/
def retryPayloads : Nat → Option JObject :=
  fun k => if k < 3 then none else some samplePlayerJson

/-- Sample loop input stream on which every cycle raises and every
recovery fetch fails. -/
def failingInputs : Nat → CycleResult × Option JObject :=
  fun _ => (CycleResult.raised [], none)

/-
Theorems. Helper lemmas come first, then one theorem per claim with its
witness where the claim theorem has hypotheses.
-/

lemma weight_captured (t : PlanetZoneTuple) (hc : t.zone.captured = true) :
    t.weight = some 0 := by
  simp [PlanetZoneTuple.weight, hc]

lemma weight_high_done (t : PlanetZoneTuple) (hc : t.zone.captured = false)
    (h3 : t.zone.difficulty = 3) (hp : t.zone.capture_progress ≥ (95/100 : Rat)) :
    t.weight = some 0 := by
  simp [PlanetZoneTuple.weight, hc, h3, hp]

lemma weight_medium_done (t : PlanetZoneTuple) (hc : t.zone.captured = false)
    (h2 : t.zone.difficulty = 2) (hp : t.zone.capture_progress ≥ (96/100 : Rat)) :
    t.weight = some 0 := by
  simp [PlanetZoneTuple.weight, hc, h2, hp]

lemma weight_eval (t : PlanetZoneTuple) (hc : t.zone.captured = false)
    (hn3 : ¬(t.zone.difficulty = 3 ∧ t.zone.capture_progress ≥ (95/100 : Rat)))
    (hn2 : ¬(t.zone.difficulty = 2 ∧ t.zone.capture_progress ≥ (96/100 : Rat)))
    (m : Rat) (hm : difficultyMultiplier t.zone.difficulty = some m) :
    t.weight = some (m * 8 + (1 - t.zone.capture_progress)) := by
  simp [PlanetZoneTuple.weight, hc, hn3, hn2, hm]

/-- C1: PlanetZoneTuple.weight returns 0 for captured zones; 0 for High
(3) zones at capture_progress at least 0.95; 0 for Medium (2) zones at
capture_progress at least 0.96; and otherwise m * 8 + (1 - progress) where
m is the looked up difficulty multiplier {1: 2, 2: 4, 3: 8, 4: 100}. -/
theorem weight_cases (t : PlanetZoneTuple) :
    (t.zone.captured = true → t.weight = some 0) ∧
    (t.zone.captured = false → t.zone.difficulty = 3 →
      t.zone.capture_progress ≥ (95/100 : Rat) → t.weight = some 0) ∧
    (t.zone.captured = false → t.zone.difficulty = 2 →
      t.zone.capture_progress ≥ (96/100 : Rat) → t.weight = some 0) ∧
    (t.zone.captured = false →
      ¬(t.zone.difficulty = 3 ∧ t.zone.capture_progress ≥ (95/100 : Rat)) →
      ¬(t.zone.difficulty = 2 ∧ t.zone.capture_progress ≥ (96/100 : Rat)) →
      ∀ m : Rat, difficultyMultiplier t.zone.difficulty = some m →
        t.weight = some (m * 8 + (1 - t.zone.capture_progress))) :=
  ⟨weight_captured t,
   fun hc h3 hp => weight_high_done t hc h3 hp,
   fun hc h2 hp => weight_medium_done t hc h2 hp,
   fun hc hn3 hn2 m hm => weight_eval t hc hn3 hn2 m hm⟩

/-- Witness for C1: the sample Low zone at progress 1/2 weighs
2 * 8 + (1 - 1/2). -/
theorem weight_cases_witness :
    PlanetZoneTuple.weight tLow = some ((2 : Rat) * 8 + (1 - 1/2)) :=
  (weight_cases tLow).2.2.2 rfl (by simp [tLow, lowZone])
    (by simp [tLow, lowZone]) 2 rfl

/-- C8: every uncaptured Boss zone with progress in [0, 1] strictly
outweighs every Low, Medium or High zone whose weight is defined, nonzero
and computed from a progress in [0, 1]. -/
theorem boss_outranks (boss other : PlanetZoneTuple)
    (hbd : boss.zone.difficulty = 4) (hbc : boss.zone.captured = false)
    (hbp0 : 0 ≤ boss.zone.capture_progress) (hbp1 : boss.zone.capture_progress ≤ 1)
    (hod : other.zone.difficulty = 1 ∨ other.zone.difficulty = 2 ∨ other.zone.difficulty = 3)
    (hop0 : 0 ≤ other.zone.capture_progress) (hop1 : other.zone.capture_progress ≤ 1)
    (w : Rat) (hw : other.weight = some w) (hwnz : w ≠ 0) :
    ∃ wb, boss.weight = some wb ∧ w < wb := by
  have hbm : difficultyMultiplier boss.zone.difficulty = some 100 := by
    rw [hbd]; rfl
  have hbn3 : ¬(boss.zone.difficulty = 3 ∧ boss.zone.capture_progress ≥ (95/100 : Rat)) := by
    simp [hbd]
  have hbn2 : ¬(boss.zone.difficulty = 2 ∧ boss.zone.capture_progress ≥ (96/100 : Rat)) := by
    simp [hbd]
  refine ⟨100 * 8 + (1 - boss.zone.capture_progress),
    weight_eval boss hbc hbn3 hbn2 100 hbm, ?_⟩
  cases hoc : other.zone.captured with
  | true =>
    rw [weight_captured other hoc] at hw
    exact absurd (Option.some.inj hw).symm hwnz
  | false =>
    rcases hod with h1 | h2 | h3
    · have hm : difficultyMultiplier other.zone.difficulty = some 2 := by rw [h1]; rfl
      have hn3 : ¬(other.zone.difficulty = 3 ∧ other.zone.capture_progress ≥ (95/100 : Rat)) := by
        simp [h1]
      have hn2 : ¬(other.zone.difficulty = 2 ∧ other.zone.capture_progress ≥ (96/100 : Rat)) := by
        simp [h1]
      rw [weight_eval other hoc hn3 hn2 2 hm] at hw
      have hwv := (Option.some.inj hw).symm
      rw [hwv]; linarith
    · by_cases hp : other.zone.capture_progress ≥ (96/100 : Rat)
      · rw [weight_medium_done other hoc h2 hp] at hw
        exact absurd (Option.some.inj hw).symm hwnz
      · have hm : difficultyMultiplier other.zone.difficulty = some 4 := by rw [h2]; rfl
        have hn3 : ¬(other.zone.difficulty = 3 ∧ other.zone.capture_progress ≥ (95/100 : Rat)) := by
          simp [h2]
        have hn2 : ¬(other.zone.difficulty = 2 ∧ other.zone.capture_progress ≥ (96/100 : Rat)) :=
          fun h => hp h.2
        rw [weight_eval other hoc hn3 hn2 4 hm] at hw
        have hwv := (Option.some.inj hw).symm
        rw [hwv]; linarith
    · by_cases hp : other.zone.capture_progress ≥ (95/100 : Rat)
      · rw [weight_high_done other hoc h3 hp] at hw
        exact absurd (Option.some.inj hw).symm hwnz
      · have hm : difficultyMultiplier other.zone.difficulty = some 8 := by rw [h3]; rfl
        have hn3 : ¬(other.zone.difficulty = 3 ∧ other.zone.capture_progress ≥ (95/100 : Rat)) :=
          fun h => hp h.2
        have hn2 : ¬(other.zone.difficulty = 2 ∧ other.zone.capture_progress ≥ (96/100 : Rat)) := by
          simp [h3]
        rw [weight_eval other hoc hn3 hn2 8 hm] at hw
        have hwv := (Option.some.inj hw).symm
        rw [hwv]; linarith

/-- Witness for C8: the sample Boss zone pairing outweighs the sample Low
zone pairing of weight 33/2. -/
theorem boss_outranks_witness :
    PlanetZoneTuple.weight tBoss = some ((100 : Rat) * 8 + (1 - 1/10)) ∧
    (33/2 : Rat) < (100 : Rat) * 8 + (1 - 1/10) := by
  have hweval : PlanetZoneTuple.weight tBoss = some ((100 : Rat) * 8 + (1 - 1/10)) :=
    weight_eval tBoss rfl (by simp [tBoss, bossZone]) (by simp [tBoss, bossZone]) 100 rfl
  have hwlow : PlanetZoneTuple.weight tLow = some (33/2 : Rat) := by
    rw [weight_eval tLow rfl (by simp [tLow, lowZone]) (by simp [tLow, lowZone]) 2 rfl]
    norm_num [Option.some.injEq, tLow, lowZone]
  obtain ⟨wb, hwb, hlt⟩ :=
    boss_outranks tBoss tLow rfl rfl (by norm_num [tBoss, bossZone])
      (by norm_num [tBoss, bossZone]) (Or.inl rfl) (by norm_num [tLow, lowZone])
      (by norm_num [tLow, lowZone]) (33/2) hwlow (by norm_num)
  rw [hweval] at hwb
  have he := Option.some.inj hwb
  exact ⟨hweval, he ▸ hlt⟩

lemma weight_isSome_of_mult (pd : PlanetDetails) (z : Zone) (m : Rat)
    (hm : difficultyMultiplier z.difficulty = some m) :
    (PlanetZoneTuple.weight ⟨pd, z⟩).isSome = true := by
  simp only [PlanetZoneTuple.weight]
  split
  · rfl
  · split
    · rfl
    · split
      · rfl
      · simp [hm]

/-- C10: weight and get_difficulty_score are defined exactly on the
difficulty table {1, 2, 3, 4}: inside the table both return a value, while
outside it the multiplier and score lookups yield no value and the
uncaptured weight computation is undefined. Difficulty membership in the
table is thus a precondition making the undefined branch unreachable. -/
theorem difficulty_table_domain (z : Zone) (pd : PlanetDetails) :
    ((z.difficulty = 1 ∨ z.difficulty = 2 ∨ z.difficulty = 3 ∨ z.difficulty = 4) →
      (z.get_difficulty_score).isSome = true ∧
      (difficultyMultiplier z.difficulty).isSome = true ∧
      (PlanetZoneTuple.weight ⟨pd, z⟩).isSome = true) ∧
    (z.difficulty ≠ 1 → z.difficulty ≠ 2 → z.difficulty ≠ 3 → z.difficulty ≠ 4 →
      z.get_difficulty_score = none ∧
      difficultyMultiplier z.difficulty = none ∧
      (z.captured = false → PlanetZoneTuple.weight ⟨pd, z⟩ = none)) := by
  constructor
  · intro h
    refine ⟨?_, ?_, ?_⟩
    · rcases h with h | h | h | h <;> simp [Zone.get_difficulty_score, h]
    · rcases h with h | h | h | h <;> simp [difficultyMultiplier, h]
    · rcases h with h | h | h | h
      · exact weight_isSome_of_mult pd z 2 (by rw [h]; rfl)
      · exact weight_isSome_of_mult pd z 4 (by rw [h]; rfl)
      · exact weight_isSome_of_mult pd z 8 (by rw [h]; rfl)
      · exact weight_isSome_of_mult pd z 100 (by rw [h]; rfl)
  · intro h1 h2 h3 h4
    refine ⟨?_, ?_, ?_⟩
    · simp [Zone.get_difficulty_score, h1, h2, h3, h4]
    · simp [difficultyMultiplier, h1, h2, h3, h4]
    · intro hc
      simp [PlanetZoneTuple.weight, difficultyMultiplier, hc, h1, h2, h3, h4]

/-- Witness for C10: the stray difficulty 7 zone has no score, no
multiplier and an undefined weight, while the Boss zone has a score. -/
theorem difficulty_table_domain_witness :
    Zone.get_difficulty_score strayZone = none ∧
    difficultyMultiplier strayZone.difficulty = none ∧
    PlanetZoneTuple.weight ⟨samplePlanet, strayZone⟩ = none ∧
    (Zone.get_difficulty_score bossZone).isSome = true := by
  obtain ⟨hs, hm, hw⟩ :=
    (difficulty_table_domain strayZone samplePlanet).2
      (by decide) (by decide) (by decide) (by decide)
  exact ⟨hs, hm, hw rfl,
    ((difficulty_table_domain bossZone samplePlanet).1
      (Or.inr (Or.inr (Or.inr rfl)))).1⟩

lemma lastElem?_isSome_cons {α : Type} (a : α) (l : List α) :
    ∃ c, lastElem? (a :: l) = some c := by
  induction l generalizing a with
  | nil => exact ⟨a, rfl⟩
  | cons b t ih => exact ih b

lemma lastElem?_eq_none_iff {α : Type} (l : List α) :
    lastElem? l = none ↔ l = [] := by
  cases l with
  | nil => simp [lastElem?]
  | cons a t =>
    obtain ⟨c, hc⟩ := lastElem?_isSome_cons a t
    simp [hc]

lemma lastElem?_cons_of_ne_nil {α : Type} (a : α) (l : List α) (h : l ≠ []) :
    lastElem? (a :: l) = lastElem? l := by
  cases l with
  | nil => exact absurd rfl h
  | cons b t => rfl

lemma lastElem?_append_single {α : Type} (l : List α) (x : α) :
    lastElem? (l ++ [x]) = some x := by
  induction l with
  | nil => rfl
  | cons a t ih =>
    cases t with
    | nil => rfl
    | cons b u => exact ih

lemma orderedInsertW_ne_nil (a : PlanetZoneTuple) (l : List PlanetZoneTuple) :
    orderedInsertW a l ≠ [] := by
  cases l with
  | nil => simp [orderedInsertW]
  | cons b t => simp [orderedInsertW]; split <;> simp

lemma orderedInsertW_head (a : PlanetZoneTuple) (l : List PlanetZoneTuple) :
    (orderedInsertW a l).head? = some a ∨ (orderedInsertW a l).head? = l.head? := by
  cases l with
  | nil => left; rfl
  | cons b t =>
    by_cases hab : weightKey a ≤ weightKey b
    · left; simp [orderedInsertW, hab]
    · right; simp [orderedInsertW, hab]

lemma chain_le_lastElem (l : List PlanetZoneTuple) (b c : PlanetZoneTuple)
    (hc : List.Chain' (fun x y => weightKey x ≤ weightKey y) (b :: l))
    (hl : lastElem? (b :: l) = some c) : weightKey b ≤ weightKey c := by
  induction l generalizing b with
  | nil =>
    have hb : b = c := by simpa [lastElem?] using hl
    exact hb ▸ le_refl _
  | cons d t ih =>
    rw [List.chain'_cons] at hc
    exact le_trans hc.1 (ih d hc.2 hl)

lemma lastElem?_orderedInsertW (a b : PlanetZoneTuple) (s : List PlanetZoneTuple)
    (hs : List.Chain' (fun x y => weightKey x ≤ weightKey y) s)
    (hb : lastElem? s = some b) :
    lastElem? (orderedInsertW a s) =
      if weightKey a ≤ weightKey b then some b else some a := by
  induction s with
  | nil => simp [lastElem?] at hb
  | cons d t ih =>
    by_cases had : weightKey a ≤ weightKey d
    · rw [show orderedInsertW a (d :: t) = a :: d :: t from by
        simp [orderedInsertW, had]]
      have hab : weightKey a ≤ weightKey b := le_trans had (chain_le_lastElem t d b hs hb)
      rw [if_pos hab]
      exact hb
    · rw [show orderedInsertW a (d :: t) = d :: orderedInsertW a t from by
        simp [orderedInsertW, had]]
      cases t with
      | nil =>
        have hbd : d = b := by simpa [lastElem?] using hb
        subst hbd
        simp [orderedInsertW, lastElem?, if_neg had]
      | cons e u =>
        have hs2 : List.Chain' (fun x y => weightKey x ≤ weightKey y) (e :: u) :=
          (List.chain'_cons.mp hs).2
        rw [lastElem?_cons_of_ne_nil d _ (orderedInsertW_ne_nil a (e :: u))]
        exact ih hs2 hb

lemma chain'_orderedInsertW (a : PlanetZoneTuple) (s : List PlanetZoneTuple)
    (hs : List.Chain' (fun x y => weightKey x ≤ weightKey y) s) :
    List.Chain' (fun x y => weightKey x ≤ weightKey y) (orderedInsertW a s) := by
  induction s with
  | nil => simp [orderedInsertW]
  | cons b l ih =>
    by_cases hab : weightKey a ≤ weightKey b
    · rw [show orderedInsertW a (b :: l) = a :: b :: l from by simp [orderedInsertW, hab]]
      exact List.chain'_cons.mpr ⟨hab, hs⟩
    · rw [show orderedInsertW a (b :: l) = b :: orderedInsertW a l from by
        simp [orderedInsertW, hab]]
      rw [List.chain'_cons']
      refine ⟨?_, ih (List.chain'_cons'.mp hs).2⟩
      intro y hy
      rcases orderedInsertW_head a l with h | h
      · rw [h] at hy
        simp only [Option.mem_def, Option.some.injEq] at hy
        exact hy ▸ le_of_not_le hab
      · rw [h] at hy
        exact (List.chain'_cons'.mp hs).1 y hy

lemma chain'_sortByWeight (l : List PlanetZoneTuple) :
    List.Chain' (fun x y => weightKey x ≤ weightKey y) (sortByWeight l) := by
  induction l with
  | nil => simp [sortByWeight]
  | cons a t ih => exact chain'_orderedInsertW a (sortByWeight t) ih

lemma findBest_cons_none (a : PlanetZoneTuple) (l : List PlanetZoneTuple)
    (hb : findBestZonePosition l = none) :
    findBestZonePosition (a :: l) = some a := by
  unfold findBestZonePosition at hb
  have hnil : sortByWeight l = [] := (lastElem?_eq_none_iff _).mp hb
  show lastElem? (orderedInsertW a (sortByWeight l)) = some a
  rw [hnil]
  rfl

lemma findBest_cons_some (a b : PlanetZoneTuple) (l : List PlanetZoneTuple)
    (hb : findBestZonePosition l = some b) :
    findBestZonePosition (a :: l) =
      if weightKey a ≤ weightKey b then some b else some a := by
  unfold findBestZonePosition at hb
  show lastElem? (orderedInsertW a (sortByWeight l)) =
    if weightKey a ≤ weightKey b then some b else some a
  exact lastElem?_orderedInsertW a b (sortByWeight l) (chain'_sortByWeight l) hb

/-- C2: the selector over the flattened pairing list returns, for every
non-empty list, a pairing of maximal weight key, and among pairings of
exactly the maximal key the last one in input order (Python sorted is a
stable ascending sort and the source takes element [-1]); on the empty
list it returns none, modelling the IndexError raised by [-1] rather than
any silent pick. weightKey coincides with the source weight wherever that
weight is defined. -/
theorem find_best_zone_spec (zones : List PlanetZoneTuple) :
    (findBestZonePosition zones = none ↔ zones = []) ∧
    (∀ t, findBestZonePosition zones = some t →
      ∃ l₁ l₂, zones = l₁ ++ t :: l₂ ∧
        (∀ u ∈ zones, weightKey u ≤ weightKey t) ∧
        (∀ u ∈ l₂, weightKey u < weightKey t)) := by
  induction zones with
  | nil =>
    constructor
    · simp [findBestZonePosition, sortByWeight, lastElem?]
    · intro t ht
      simp [findBestZonePosition, sortByWeight, lastElem?] at ht
  | cons a l ih =>
    constructor
    · constructor
      · intro h
        exfalso
        cases hb : findBestZonePosition l with
        | none =>
          rw [findBest_cons_none a l hb] at h
          exact Option.noConfusion h
        | some b =>
          rw [findBest_cons_some a b l hb] at h
          by_cases hab : weightKey a ≤ weightKey b
          · rw [if_pos hab] at h; exact Option.noConfusion h
          · rw [if_neg hab] at h; exact Option.noConfusion h
      · intro h
        exact absurd h (List.cons_ne_nil a l)
    · intro t ht
      cases hb : findBestZonePosition l with
      | none =>
        rw [findBest_cons_none a l hb] at ht
        have hat : a = t := Option.some.inj ht
        have hl : l = [] := (ih.1).mp hb
        subst hat
        subst hl
        exact ⟨[], [], rfl, by simp, by simp⟩
      | some b =>
        rw [findBest_cons_some a b l hb] at ht
        obtain ⟨l₁, l₂, hdec, hmax, hstrict⟩ := ih.2 b hb
        by_cases hab : weightKey a ≤ weightKey b
        · rw [if_pos hab] at ht
          have hbt : b = t := Option.some.inj ht
          subst hbt
          refine ⟨a :: l₁, l₂, by rw [hdec]; rfl, ?_, hstrict⟩
          intro u hu
          rcases List.mem_cons.mp hu with h | h
          · exact h ▸ hab
          · exact hmax u h
        · rw [if_neg hab] at ht
          have hat : a = t := Option.some.inj ht
          subst hat
          have hba : weightKey b < weightKey a := not_le.mp hab
          refine ⟨[], l, rfl, ?_, ?_⟩
          · intro u hu
            rcases List.mem_cons.mp hu with h | h
            · exact h ▸ le_refl _
            · exact le_trans (hmax u h) (le_of_lt hba)
          · intro u hu
            exact lt_of_le_of_lt (hmax u hu) hba

/-- Witness for C2: on the two-pairing sample list the selector returns
the Boss pairing, whose weight key dominates. -/
theorem find_best_zone_spec_witness :
    weightKey tLow ≤ weightKey tBoss ∧
    findBestZonePosition [tLow, tBoss] = some tBoss := by
  have hklow : weightKey tLow = 33/2 := by
    rw [weightKey, weight_eval tLow rfl (by simp [tLow, lowZone])
      (by simp [tLow, lowZone]) 2 rfl]
    norm_num [tLow, lowZone]
  have hkboss : weightKey tBoss = 8009/10 := by
    rw [weightKey, weight_eval tBoss rfl (by simp [tBoss, bossZone])
      (by simp [tBoss, bossZone]) 100 rfl]
    norm_num [tBoss, bossZone]
  have hle : weightKey tLow ≤ weightKey tBoss := by
    rw [hklow, hkboss]; norm_num
  have hfb : findBestZonePosition [tLow, tBoss] = some tBoss := by
    show lastElem? (orderedInsertW tLow (orderedInsertW tBoss [])) = some tBoss
    rw [show orderedInsertW tBoss [] = [tBoss] from rfl,
      show orderedInsertW tLow [tBoss] = tLow :: [tBoss] from by
        simp [orderedInsertW, hle]]
    rfl
  obtain ⟨l₁, l₂, hdec, hmax, hstrict⟩ :=
    (find_best_zone_spec [tLow, tBoss]).2 tBoss hfb
  exact ⟨hmax tLow (by simp), hfb⟩

/-- C3: the read/report operations getPlanets, getPlanetDetails,
getPlayerInfo and reportScore fail with NoResponseError exactly on a falsy
response envelope, and joinPlanet and leavePlanet never do; but contrary to
the claim, _join_zone (src/salians.py lines 260-264) performs no envelope
check at all and returns the decoded payload unconditionally, so it never
raises NoResponseError — even on the absent or empty envelope shown here —
although the control loop wraps it in an except NoResponseError handler. -/
theorem join_zone_no_envelope_check :
    (∀ p, joinZoneOp p = Except.ok p) ∧
    joinZoneOp none = Except.ok none ∧
    joinZoneOp (some []) = Except.ok (some []) ∧
    getPlayerInfoOp none = Except.error OpError.noResponse ∧
    getPlanetSummariesOp none = Except.error OpError.noResponse ∧
    getPlanetDetailsOp none = Except.error OpError.noResponse ∧
    reportScoreOp none = Except.error OpError.noResponse ∧
    getPlayerInfoOp (some []) = Except.error OpError.noResponse ∧
    reportScoreOp (some []) = Except.error OpError.noResponse ∧
    joinPlanetOp none = Except.ok () ∧
    leavePlanetOp none = Except.ok () :=
  ⟨fun _ => rfl, rfl, rfl, rfl, rfl, rfl, rfl, rfl, rfl, rfl, rfl⟩

/-- C6: PlayerInfo decoding maps a payload missing active_planet but with
int-coercible level, score and next_level_score to a PlayerInfo with the
sentinel -1; and fails with a DecodeError whenever a required field is
absent or not int-coercible. -/
theorem player_info_decode_spec (j : JObject) :
    (getField j apKey = none →
      ∀ l s n : Int, requireInt j levelKey = Except.ok l →
        requireInt j scoreKey = Except.ok s →
        requireInt j nlsKey = Except.ok n →
        PlayerInfo.from_json j = Except.ok ⟨-1, l, s, n⟩) ∧
    (((∃ e, requireInt j levelKey = Except.error e) ∨
      (∃ e, requireInt j scoreKey = Except.error e) ∨
      (∃ e, requireInt j nlsKey = Except.error e)) →
      ∃ e, PlayerInfo.from_json j = Except.error e) := by
  constructor
  · intro hap l s n h1 h2 h3
    have ha : activePlanetField j = Except.ok (-1) := by
      unfold activePlanetField
      rw [hap]
    unfold PlayerInfo.from_json
    rw [ha, h1, h2, h3]
  · intro hdisj
    cases hact : activePlanetField j with
    | error e =>
      exact ⟨e, by unfold PlayerInfo.from_json; rw [hact]⟩
    | ok ap =>
      cases hlev : requireInt j levelKey with
      | error e =>
        exact ⟨e, by unfold PlayerInfo.from_json; rw [hact, hlev]⟩
      | ok lv =>
        cases hsc : requireInt j scoreKey with
        | error e =>
          exact ⟨e, by unfold PlayerInfo.from_json; rw [hact, hlev, hsc]⟩
        | ok sv =>
          cases hnl : requireInt j nlsKey with
          | error e =>
            exact ⟨e, by unfold PlayerInfo.from_json; rw [hact, hlev, hsc, hnl]⟩
          | ok nv =>
            rcases hdisj with ⟨e, he⟩ | ⟨e, he⟩ | ⟨e, he⟩
            · rw [hlev] at he; exact Except.noConfusion he
            · rw [hsc] at he; exact Except.noConfusion he
            · rw [hnl] at he; exact Except.noConfusion he

/-- Witness for C6: the sample payload without active_planet decodes to
the sentinel player. -/
theorem player_info_decode_witness :
    PlayerInfo.from_json samplePlayerJson = Except.ok ⟨-1, 5, 100, 200⟩ :=
  (player_info_decode_spec samplePlayerJson).1 rfl 5 100 200 rfl rfl rfl

/-- C7: the source completion() divides score by next_level_score without
any guard; at next_level_score = 0 Python raises ZeroDivisionError
(embedded: completion returns none), so the code neither fails with a
deliberate domain error nor reports 0 percent as the claim requires. At a
nonzero denominator the unguarded division yields the percentage. -/
theorem completion_divides_unguarded :
    PlayerInfo.completion ⟨-1, 1, 4500, 0⟩ = none ∧
    PlayerInfo.completion ⟨-1, 1, 4500, 6000⟩ = some 75 := by
  constructor
  · rfl
  · norm_num [PlayerInfo.completion, Option.some.injEq]

lemma truthy_of_reportOk (p : Option JObject) (v : Bool)
    (h : reportScoreOp p = Except.ok v) : truthy p = true := by
  cases p with
  | none => exact Except.noConfusion h
  | some o =>
    cases ho : o.isEmpty with
    | true => simp [reportScoreOp, withResponse, ho] at h
    | false => simp [truthy, ho]

lemma truthy_of_reportError (p : Option JObject) (e : OpError)
    (h : reportScoreOp p = Except.error e) : truthy p = false := by
  cases p with
  | none => rfl
  | some o =>
    cases ho : o.isEmpty with
    | true => simp [truthy, ho]
    | false => simp [reportScoreOp, withResponse, ho] at h

lemma reportLoop_spec (payloads : Nat → Option JObject) :
    ∀ remaining retries,
      (reportLoop payloads retries remaining).1 ≤ remaining ∧
      ((reportLoop payloads retries remaining).2.1 = true →
        1 ≤ (reportLoop payloads retries remaining).1 ∧
        truthy (payloads (retries + (reportLoop payloads retries remaining).1 - 1)) = true ∧
        ∀ k, retries ≤ k → k + 1 < retries + (reportLoop payloads retries remaining).1 →
          truthy (payloads k) = false) ∧
      ((reportLoop payloads retries remaining).2.1 = false →
        (reportLoop payloads retries remaining).1 = remaining ∧
        ∀ k, retries ≤ k → k < retries + remaining → truthy (payloads k) = false) ∧
      ((reportLoop payloads retries remaining).2.2 =
        if (reportLoop payloads retries remaining).2.1 = true
        then (reportLoop payloads retries remaining).1 - 1
        else (reportLoop payloads retries remaining).1) := by
  intro remaining
  induction remaining with
  | zero =>
    intro retries
    refine ⟨Nat.le_refl 0, fun h => absurd h (by simp [reportLoop]), ?_, rfl⟩
    exact fun _ => ⟨rfl, fun k hk hlt => absurd hlt (by omega)⟩
  | succ rem ih =>
    intro retries
    cases hop : reportScoreOp (payloads retries) with
    | ok v =>
      have ht := truthy_of_reportOk (payloads retries) v hop
      have hr : reportLoop payloads retries (rem + 1) = (1, true, 0) := by
        simp [reportLoop, hop]
      rw [hr]
      refine ⟨by omega, fun _ => ⟨le_refl 1, ?_, ?_⟩, fun h => absurd h (by simp), rfl⟩
      · simpa using ht
      · intro k hk hlt
        exact absurd hlt (by omega)
    | error e =>
      have hf := truthy_of_reportError (payloads retries) e hop
      obtain ⟨iha, ihb, ihc, ihd⟩ := ih (retries + 1)
      have hr : reportLoop payloads retries (rem + 1) =
          ((reportLoop payloads (retries + 1) rem).1 + 1,
           (reportLoop payloads (retries + 1) rem).2.1,
           (reportLoop payloads (retries + 1) rem).2.2 + 1) := by
        simp [reportLoop, hop]
      rw [hr]
      refine ⟨by omega, ?_, ?_, ?_⟩
      · intro hs
        obtain ⟨h1, h2, h3⟩ := ihb hs
        refine ⟨by omega, ?_, ?_⟩
        · have hidx : retries + ((reportLoop payloads (retries + 1) rem).1 + 1) - 1 =
              retries + 1 + (reportLoop payloads (retries + 1) rem).1 - 1 := by omega
          rw [hidx]
          exact h2
        · intro k hk hlt
          rcases Nat.lt_or_ge k (retries + 1) with hlo | hhi
          · have hk0 : k = retries := by omega
            rw [hk0]; exact hf
          · exact h3 k hhi (by omega)
      · intro hs
        obtain ⟨h1, h2⟩ := ihc hs
        refine ⟨by omega, ?_⟩
        intro k hk hlt
        rcases Nat.lt_or_ge k (retries + 1) with hlo | hhi
        · have hk0 : k = retries := by omega
          rw [hk0]; exact hf
        · exact h2 k hhi (by omega)
      · cases hs : (reportLoop payloads (retries + 1) rem).2.1 with
        | true =>
          have h1 := (ihb hs).1
          rw [ihd]
          simp [hs]
          omega
        | false =>
          rw [ihd]
          simp [hs]

/-- C4: in a cycle, score reporting runs at most 6 attempts; each failed
attempt (a falsy report envelope, raising NoResponseError) is followed by
one fixed 10-second sleep unit before the retry; the first success stops
the retrying at once; and whether some attempt succeeded or all 6 failed,
the cycle trace still ends with the leave-planet call, with nothing
raised. -/
theorem report_retry_spec (payloads : Nat → Option JObject) (pi : PlayerInfo)
    (pz : PlanetZoneTuple) :
    (reportLoop payloads 0 6).1 ≤ 6 ∧
    ((reportLoop payloads 0 6).2.1 = true →
      truthy (payloads ((reportLoop payloads 0 6).1 - 1)) = true ∧
      ∀ k, k + 1 < (reportLoop payloads 0 6).1 → truthy (payloads k) = false) ∧
    ((reportLoop payloads 0 6).2.1 = false →
      (reportLoop payloads 0 6).1 = 6 ∧ ∀ k, k < 6 → truthy (payloads k) = false) ∧
    ((reportLoop payloads 0 6).2.2 =
      if (reportLoop payloads 0 6).2.1 = true
      then (reportLoop payloads 0 6).1 - 1 else (reportLoop payloads 0 6).1) ∧
    lastElem? (runCycle pi pz payloads) = some (BotAction.leavePlanet pi.active_planet) := by
  obtain ⟨ha, hb, hc, hd⟩ := reportLoop_spec payloads 6 0
  refine ⟨ha, ?_, ?_, hd, lastElem?_append_single _ _⟩
  · intro hs
    obtain ⟨h1, h2, h3⟩ := hb hs
    refine ⟨by simpa using h2, ?_⟩
    intro k hk
    exact h3 k (Nat.zero_le k) (by omega)
  · intro hs
    obtain ⟨h1, h2⟩ := hc hs
    exact ⟨h1, fun k hk => h2 k (Nat.zero_le k) (by omega)⟩

/-- Witness for C4: on the sample payload stream failing three times then
succeeding, the retry loop ends on a truthy attempt within the bound. -/
theorem report_retry_witness :
    truthy (retryPayloads ((reportLoop retryPayloads 0 6).1 - 1)) = true ∧
    (reportLoop retryPayloads 0 6).1 ≤ 6 :=
  ⟨((report_retry_spec retryPayloads inspectPlayer tBoss).2.1 rfl).1,
   (report_retry_spec retryPayloads inspectPlayer tBoss).1⟩

/-- C5: the leave-planet call at the end of every cycle targets the
active_planet captured from PlayerInfo at Inspect time, whatever the
report payloads were, even when a relocation to the target planet occurred
mid-cycle and even when the captured value is the -1 sentinel: the final
trace action is always leavePlanet of that captured value. -/
theorem leave_uses_inspect_planet (pi : PlayerInfo) (pz : PlanetZoneTuple)
    (payloads : Nat → Option JObject) :
    lastElem? (runCycle pi pz payloads) = some (BotAction.leavePlanet pi.active_planet) ∧
    (pi.active_planet ≠ pz.planet_details.id →
      BotAction.joinPlanet pz.planet_details.id ∈ cycleBody pi pz payloads) := by
  refine ⟨lastElem?_append_single _ _, ?_⟩
  intro h
  unfold cycleBody
  rw [if_pos h]
  simp [List.mem_append, List.mem_cons]

/-- Witness for C5: the sentinel player relocating to the sample planet
still leaves planet -1 at cycle end, after having joined planet 5. -/
theorem leave_uses_inspect_planet_witness :
    lastElem? (runCycle inspectPlayer tBoss retryPayloads) =
      some (BotAction.leavePlanet (-1)) ∧
    BotAction.joinPlanet 5 ∈ cycleBody inspectPlayer tBoss retryPayloads :=
  ⟨(leave_uses_inspect_planet inspectPlayer tBoss retryPayloads).1,
   (leave_uses_inspect_planet inspectPlayer tBoss retryPayloads).2 (by decide)⟩

/-- C9: no error raised inside a cycle is fatal: a raised cycle is caught
by the outermost handler, which appends the fixed 60-second backoff and the
best-effort recovery (a player info fetch followed by a leave on success,
nothing further when the recovery fetch itself fails, as it is swallowed
after logging); every iteration returns a plain trace, and the loop always
continues with the next iteration. -/
theorem loop_never_fatal :
    (∀ tr rp, runIteration (CycleResult.raised tr) rp =
      tr ++ sleepActions 60 1 ++ recoveryActions rp) ∧
    (∀ tr rp, runIteration (CycleResult.completed tr) rp = tr) ∧
    (recoveryActions none = [BotAction.getPlayerInfo]) ∧
    (∀ inputs n, runLoop inputs (n + 1) =
      runLoop inputs n ++ runIteration (inputs n).1 (inputs n).2) :=
  ⟨fun _ _ => rfl, fun _ _ => rfl, rfl, fun _ _ => rfl⟩
